import Mathlib

/-!
Verification of the botbot ATC repository: shallow embedding of the
separation-geometry / reward core (`ATC/st_env/utils.py`, `ATC/st_env/reward.py`,
`ATC/st_env/env.py`) and of the event-bus / decision-tracking / reasoning
pipeline (`ATC/visualization/...`), with theorems settling the frozen claims.

Numeric modelling: Python floats are modelled as real numbers (`ℝ`);
`np.hypot`, `np.mean`, `np.std`, `np.var`, `np.linalg.norm` are modelled by
their mathematical definitions.  Integer counters are `ℕ`, millisecond
timestamps used inside identifiers are `ℤ`, and wall-clock times in the event
bus are `ℚ` (kept rational so that the bus model stays executable).
-/

namespace Botbot

/-- Last `n` elements of a list (Python `l[-n:]`, and the retention behaviour
of `collections.deque(maxlen=n)` after a sequence of appends). -/
def takeLastN (l : List α) (n : ℕ) : List α := l.drop (l.length - n)

/-- All but the last `n` elements of a list (Python `l[:-n]`). -/
def dropLastN (l : List α) (n : ℕ) : List α := l.take (l.length - n)

/-- Models `deque(maxlen=m).append`: append on the right, evict from the left once
the length exceeds `m`. -/
def dequeAppend (l : List α) (x : α) (m : ℕ) : List α := takeLastN (l ++ [x]) m

/-- Models `np.mean` over a list of reals (empty list handled as division by zero,
which does not arise on the guarded code paths). -/
noncomputable def listMean (l : List ℝ) : ℝ := l.sum / l.length

/-- Models `np.var` (population variance, numpy default `ddof=0`). -/
noncomputable def listVar (l : List ℝ) : ℝ :=
  listMean (l.map (fun x => (x - listMean l) ^ 2))

/-- Models `np.std` (population standard deviation). -/
noncomputable def listStd (l : List ℝ) : ℝ := Real.sqrt (listVar l)

/-- Models `np.hypot x y = sqrt (x² + y²)`. -/
noncomputable def hypot (x y : ℝ) : ℝ := Real.sqrt (x ^ 2 + y ^ 2)

/-- Models `np.linalg.norm` of a 1-d array. -/
noncomputable def vecNorm (v : List ℝ) : ℝ := Real.sqrt ((v.map (fun x => x ^ 2)).sum)

/-- Elementwise difference of two equal-shape 1-d arrays. -/
def vecSub (a b : List ℝ) : List ℝ := List.zipWith (fun x y => x - y) a b

/-! ## Separation geometry (`ATC/st_env/utils.py`) -/

/-- Aircraft state dictionary as consumed by `pairwise_min_separation_nm` and
`compute_reward`: keys `x_nm, y_nm, alt_ft, goal_x_nm, goal_y_nm, alive`.
The environment always populates `alive`, so `.get("alive", True)` is the
field value. -/
structure ACState where
  x_nm : ℝ
  y_nm : ℝ
  alt_ft : ℝ
  goal_x_nm : ℝ
  goal_y_nm : ℝ
  alive : Bool

/-- The ordered pairs `(states[i], states[j])` for `i < j`, in the order the
double `for` loop of `pairwise_min_separation_nm` visits them. -/
def allPairs : List α → List (α × α)
  | [] => []
  | a :: rest => rest.map (fun b => (a, b)) ++ allPairs rest

/-- Loop body of `pairwise_min_separation_nm`: fold state is
`(min_sep, los_count)`. -/
noncomputable def sepStep (acc : ℝ × ℕ) (p : ACState × ACState) : ℝ × ℕ :=
  if ¬(p.1.alive ∧ p.2.alive) then acc
  else
    let d_nm := hypot (p.1.x_nm - p.2.x_nm) (p.1.y_nm - p.2.y_nm)
    let d_ft := |p.1.alt_ft - p.2.alt_ft|
    let acc1 := (min acc.1 d_nm, acc.2)
    if d_nm < 5.0 ∧ d_ft < 1000.0 then (acc1.1, acc1.2 + 1) else acc1

/-- Models `pairwise_min_separation_nm` (`utils.py` lines 19–57): minimum pairwise
lateral separation over live aircraft and the count of loss-of-separation
pairs; `999.0` is the sentinel when no live pair was measured. -/
noncomputable def pairwise_min_separation_nm (states : List ACState) : ℝ × ℕ :=
  let r := (allPairs states).foldl sepStep (1e9, 0)
  ((if r.1 < 1e9 then r.1 else 999.0), r.2)

/-! ## Reward engine (`ATC/st_env/reward.py`) -/

/-- The reward component dictionary `comps` with its seven keys. -/
structure RewardComponents where
  los : ℝ
  near : ℝ
  progress : ℝ
  smooth : ℝ
  fuel : ℝ
  terminal : ℝ
  catastrophe : ℝ

/-- Models `sum(comps.values())`. -/
def sumComponents (c : RewardComponents) : ℝ :=
  c.los + c.near + c.progress + c.smooth + c.fuel + c.terminal + c.catastrophe

/-- The `for i, (a_prev, a_cur) in enumerate(zip(prev_states, cur_states))`
loop of `compute_reward`, accumulating `(prog, terminal_bonus)`.  The
`i >= len(cur_states): break` guard in the source is dead code (`zip` already
bounds the iteration) and accumulation order is irrelevant over `ℝ`. -/
noncomputable def progressAndTerminal : List ACState → List ACState → ℝ × ℝ
  | a_prev :: ps, a_cur :: cs =>
    let rest := progressAndTerminal ps cs
    if a_cur.alive = false then
      if a_prev.alive then
        let final_range := hypot (a_cur.goal_x_nm - a_cur.x_nm) (a_cur.goal_y_nm - a_cur.y_nm)
        if final_range < 5.0 then (rest.1, rest.2 + 5.0) else rest
      else rest
    else
      let prev_range := hypot (a_cur.goal_x_nm - a_prev.x_nm) (a_cur.goal_y_nm - a_prev.y_nm)
      let cur_range := hypot (a_cur.goal_x_nm - a_cur.x_nm) (a_cur.goal_y_nm - a_cur.y_nm)
      (rest.1 + (prev_range - cur_range), rest.2)
  | _, _ => (0, 0)

/-- Models `compute_reward` (`reward.py` lines 44–139).  Returns the clipped scalar
reward together with the pre-clip component breakdown.  The `alive_mask`
argument is accepted (as in the Python signature) and, exactly as in the
source body, never read. -/
noncomputable def compute_reward (prev_states cur_states : List ACState)
    (min_sep_nm : ℝ) (los_count : ℕ) (alive_mask : List Bool) :
    ℝ × RewardComponents :=
  let pt := progressAndTerminal prev_states cur_states
  let comps : RewardComponents :=
    { los := -10.0 * los_count
      near := if min_sep_nm < 6.0 then -2.0 else 0.0
      progress := 0.05 * pt.1
      smooth := 0.0
      fuel := 0.0
      terminal := pt.2
      catastrophe := if 2 ≤ los_count then -10.0 else 0.0 }
  let r := sumComponents comps
  (max (-20.0) (min r 5.0), comps)

/-! ## Termination logic of `SyntheticTowerEnv.step` (`ATC/st_env/env.py`
lines 248–262): `terminated`/`truncated` as computed from the reward
components, the alive count and the step counter. -/

/-- The flag-setting sequence of `SyntheticTowerEnv.step`. -/
noncomputable def step_flags (catastrophe : ℝ) (num_alive step_count horizon : ℕ) :
    Bool × Bool :=
  let terminated := false
  let truncated := false
  let terminated := if catastrophe < 0 then true else terminated
  let truncated := if horizon ≤ step_count then true else truncated
  let terminated := if num_alive = 0 then true else terminated
  (terminated, truncated)

/-! ## Event bus (`ATC/visualization/events/event_bus.py`)

The bus is modelled single-threadedly: the worker pool only isolates and
sequences callback execution, and the claims under verification (fan-out
isolation, rate-limit shedding) are about which callbacks run and what state
results, not about interleaving.  A subscriber callback is a function from
the event and the callback own accumulated local state to `Option` of a
new local state; `none` models the callback raising an exception, which
`_safe_callback` catches (the local state is then left unchanged, mirroring
a handler that raises before recording anything). -/

/-- Models `EventData`: a type tag plus an opaque payload. -/
structure Event where
  etype : ℕ
  payload : ℤ
deriving DecidableEq

/-- A subscriber callback with its closure state (the list of events it has
recorded so far); `none` = the callback raises. -/
def SubHandler : Type := Event → List Event → Option (List Event)

/-- A registered subscriber: the event type it subscribed to, its callback,
and the callback accumulated local state. -/
structure Subscriber where
  etype : ℕ
  handler : SubHandler
  state : List Event

/-- Models `EventBus` state: subscriber registry, named filters (a filter returning
`none` models a filter that raises, which `_apply_filters` treats as a pass),
bounded event history, and the rate-limiter fields. -/
structure Bus where
  subscribers : List Subscriber
  filters : List (Event → Option Bool)
  history : List Event
  maxHistory : ℕ
  rateLimit : ℕ
  rateCounter : ℕ
  rateWindowStart : ℚ
  running : Bool

/-- Models `_safe_callback` (lines 270–275): run the callback, swallow exceptions. -/
def safeCallback (h : SubHandler) (e : Event) (st : List Event) : List Event :=
  (h e st).getD st

/-- Models `_notify_subscribers` (lines 255–268): every subscriber registered for
the event type has its callback run under `_safe_callback`. -/
def notifySubscribers (e : Event) (subs : List Subscriber) : List Subscriber :=
  subs.map fun s =>
    if s.etype = e.etype then { s with state := safeCallback s.handler e s.state } else s

/-- Models `_apply_filters` (lines 243–253): a filter vetoes by returning `False`;
a raising filter is logged and processing continues. -/
def applyFilters (filters : List (Event → Option Bool)) (e : Event) : Bool :=
  filters.all fun f => (f e).getD true

/-- Models `_check_rate_limit` (lines 228–241): reset the counter on a new
one-second window, then accept (incrementing) or reject. -/
def checkRateLimit (b : Bus) (now : ℚ) : Bus × Bool :=
  let b := if 1 ≤ now - b.rateWindowStart
    then { b with rateCounter := 0, rateWindowStart := now } else b
  if b.rateLimit ≤ b.rateCounter then (b, false)
  else ({ b with rateCounter := b.rateCounter + 1 }, true)

/-- Models `publish` (lines 101–128): shutdown guard, rate limiting, filters,
history append, subscriber notification. -/
def publish (b : Bus) (e : Event) (now : ℚ) : Bus :=
  if b.running = false then b
  else
    let cr := checkRateLimit b now
    if cr.2 = false then cr.1
    else if applyFilters cr.1.filters e = false then cr.1
    else
      let b2 := { cr.1 with history := dequeAppend cr.1.history e cr.1.maxHistory }
      { b2 with subscribers := notifySubscribers e b2.subscribers }

/-- A sequence of `publish` calls. -/
def publishAll (b : Bus) (es : List Event) (now : ℚ) : Bus :=
  es.foldl (fun b e => publish b e now) b

/-- The recording subscriber of the fan-out-isolation scenario: appends every
event it receives to its local state and returns normally. -/
def recorderHandler : SubHandler := fun e st => some (st ++ [e])

/-- The always-raising subscriber of the fan-out-isolation scenario. -/
def raiserHandler : SubHandler := fun _ _ => none

/-! ## Decision tracker (`ATC/visualization/decision/decision_tracker.py`)

A `DecisionRecord` keeps the fields the claims touch.  The Python
`decision_id` string `f"decision_{n}_{t}"` is modelled by the pair `(n, t)`:
the string is determined by, and determines, that pair (the two decimal
numerals are separated by underscores, so the rendering is injective). -/

structure DecisionRecord where
  decisionId : ℕ × ℤ
  timestamp : ℝ
  action : List ℝ
  valueEstimate : ℝ
  actionConfidence : Option ℝ
  reward : Option ℝ

/-- Per-call inputs of `log_decision`: the millisecond clock sampled for the
id, plus the payload stored in the record (`confidence_scores` is reduced to
its `action_confidence` entry, the only one the safety analyzer reads). -/
structure LogInput where
  tms : ℤ
  timestamp : ℝ
  action : List ℝ
  valueEstimate : ℝ
  actionConfidence : Option ℝ
  reward : Option ℝ

/-- The record built by `log_decision` when the post-increment counter is
`n`. -/
def mkRecord (n : ℕ) (inp : LogInput) : DecisionRecord :=
  { decisionId := (n, inp.tms)
    timestamp := inp.timestamp
    action := inp.action
    valueEstimate := inp.valueEstimate
    actionConfidence := inp.actionConfidence
    reward := inp.reward }

/-- The records produced by a run of `log_decision` calls starting from
counter value `n`. -/
def mkRecords (n : ℕ) : List LogInput → List DecisionRecord
  | [] => []
  | i :: is => mkRecord (n + 1) i :: mkRecords (n + 1) is

/-- Models `DecisionTracker` state: the `deque(maxlen=max_decisions)` buffer and the
monotonic `_decision_count`. -/
structure TrackerState where
  decisions : List DecisionRecord
  decisionCount : ℕ
  maxDecisions : ℕ

/-- Models `log_decision` (lines 108–153): increment the counter, build the record
with id `decision_{count}_{ms}`, append to the rolling buffer. -/
def log_decision (s : TrackerState) (inp : LogInput) : TrackerState :=
  let n := s.decisionCount + 1
  { s with
    decisionCount := n
    decisions := dequeAppend s.decisions (mkRecord n inp) s.maxDecisions }

/-- A sequence of `log_decision` calls. -/
def log_many (s : TrackerState) (inputs : List LogInput) : TrackerState :=
  inputs.foldl log_decision s

/-- Models `get_decision_by_id` (lines 173–187): linear scan of the buffer. -/
def get_decision_by_id (s : TrackerState) (id : ℕ × ℤ) : Option DecisionRecord :=
  s.decisions.find? fun d => d.decisionId = id

/-- The two `get_statistics` fields the claims read (the timestamp range and
confidence statistics of the non-empty branch are omitted). -/
structure TrackerStats where
  totalDecisions : ℕ
  bufferSize : ℕ
deriving DecidableEq

/-- Models `get_statistics` (lines 209–246): an empty buffer reports
`total_decisions = 0`; otherwise the monotonic counter is reported. -/
def get_statistics (s : TrackerState) : TrackerStats :=
  if s.decisions.isEmpty then { totalDecisions := 0, bufferSize := 0 }
  else { totalDecisions := s.decisionCount, bufferSize := s.decisions.length }

/-! ## Pattern analyzer (`ATC/visualization/reasoning/pattern_analyzer.py`)

`BehaviorPattern` is reduced to its identifying fields: the Python
`pattern_id` string `f"..._{count}_{ms}"` is modelled by the counter/clock
pair, and `effect_size` (the z-score for anomalies) is kept; the descriptive
payload (description, recommendations, severity band, p-value) plays no role
in the storage claims. -/

structure BehaviorPattern where
  patternId : ℕ × ℤ
  effectSize : ℝ

/-- Python `PerformanceMetrics` is a dataclass whose fields are all present, so the
`hasattr` guard of `detect_anomalies` always passes; a metric name denotes a
field accessor `PerformanceMetrics → ℝ`.  The rolling performance history is
therefore modelled directly as the type `PM`, left abstract except for the
accessor handed to `detect_anomalies`. -/
structure PAState (PM : Type) where
  patterns : List BehaviorPattern
  patternCount : ℕ
  performanceHistory : List PM

/-- Capacity of the pattern history deque (line 141). -/
def patternHistoryCapacity : ℕ := 500

/-- Models `self.anomaly_threshold` (line 152). -/
noncomputable def anomaly_threshold : ℝ := 2.5

/-- Models `analyze_recent_performance` (lines 168–211).  The four statistical
sub-analyses (`_analyze_reward_patterns`, `_analyze_decision_patterns`,
`_analyze_safety_patterns`, `_analyze_learning_patterns`) are abstracted as
the parameter `analyses`: the storage behaviour under verification — every
detected pattern is appended to the bounded `_patterns` deque and the same
list is returned — is independent of which patterns they produce. -/
def analyze_recent_performance (analyses : List PM → List BehaviorPattern)
    (s : PAState PM) (episodes : ℕ) : PAState PM × List BehaviorPattern :=
  let recent_metrics := takeLastN s.performanceHistory episodes
  if recent_metrics.length < 10 then (s, [])
  else
    let detected := analyses recent_metrics
    ({ s with
        patterns := takeLastN (s.patterns ++ detected) patternHistoryCapacity
        patternCount := s.patternCount + detected.length }, detected)

/-- The anomaly loop of `detect_anomalies` (lines 251–275): one pattern per
z-score above threshold, ids minted from the running `_pattern_count`.  Fold
state is `(pattern_count, anomalies)`. -/
noncomputable def anomalyFold (tms : ℤ) (acc : ℕ × List BehaviorPattern) (z : ℝ) :
    ℕ × List BehaviorPattern :=
  if anomaly_threshold < z then
    (acc.1 + 1, acc.2 ++ [{ patternId := (acc.1, tms), effectSize := z }])
  else acc

/-- Models `detect_anomalies` (lines 213–277): z-score the last 10 values of the
metric against the baseline of the earlier values; anomalies are returned to
the caller and `_pattern_count` is advanced, but — unlike
`analyze_recent_performance` — nothing is appended to `_patterns`. -/
noncomputable def detect_anomalies (metric : PM → ℝ) (s : PAState PM)
    (lookback_episodes : ℕ) (tms : ℤ) : PAState PM × List BehaviorPattern :=
  let recent_metrics := takeLastN s.performanceHistory lookback_episodes
  if recent_metrics.length < 20 then (s, [])
  else
    let values := recent_metrics.map metric
    if values = [] then (s, [])
    else
      let baseline_mean := listMean (dropLastN values 10)
      let baseline_std := listStd (dropLastN values 10)
      if baseline_std = 0 then (s, [])
      else
        let recent_values := takeLastN values 10
        let z_scores := recent_values.map fun v => |(v - baseline_mean) / baseline_std|
        let r := z_scores.foldl (anomalyFold tms) (s.patternCount, [])
        ({ s with patternCount := r.1 }, r.2)

/-! ## Safety analyzer (`ATC/visualization/reasoning/safety_analyzer.py`) -/

inductive ViolationSeverity where
  | low | medium | high | critical
deriving DecidableEq

/-- The record `SafetyViolation` restricted to the fields the verified behaviour reads
or writes (the geometric fields and the preventability/response annotations
do not feed into root-cause identification or the safety score). -/
structure SafetyViolation where
  timestamp : ℝ
  severity : ViolationSeverity
  contributingDecisions : List (ℕ × ℤ)
  rootCauses : List String

/-- Models `self.lookback_seconds` (line 140). -/
noncomputable def lookback_seconds : ℝ := 300.0

/-- Stable insertion sort by timestamp, modelling the stable
`list.sort(key=lambda d: d.timestamp)` of `_get_relevant_decisions`. -/
noncomputable def insertByTime (d : DecisionRecord) :
    List DecisionRecord → List DecisionRecord
  | [] => [d]
  | x :: xs => if x.timestamp ≤ d.timestamp then x :: insertByTime d xs else d :: x :: xs

/-- See `insertByTime`. -/
noncomputable def sortByTime : List DecisionRecord → List DecisionRecord
  | [] => []
  | x :: xs => insertByTime x (sortByTime xs)

/-- Models `_get_relevant_decisions` (lines 392–408): decisions in the lookback
window before the violation, sorted by timestamp. -/
noncomputable def get_relevant_decisions (allDecisions : List DecisionRecord)
    (violationTime : ℝ) : List DecisionRecord :=
  sortByTime (allDecisions.filter fun d =>
    decide (violationTime - lookback_seconds ≤ d.timestamp) &&
    decide (d.timestamp ≤ violationTime))

/-- Heuristic 1 of `_identify_root_causes` (lines 422–436): erratic control. -/
noncomputable def erraticControlFinding (recent : List DecisionRecord) : List String :=
  if 3 < recent.length then
    let actions := recent.map (fun d => d.action)
    let action_changes := (actions.zip actions.tail).map fun p => vecNorm (vecSub p.2 p.1)
    if action_changes ≠ [] ∧ listMean action_changes * 0.8 < listStd action_changes then
      ["Erratic control behavior - high action variability"]
    else []
  else []

/-- Heuristic 2 (lines 438–446): a cluster of low-confidence decisions. -/
noncomputable def lowConfidenceFinding (recent : List DecisionRecord) : List String :=
  let low_confidence_count := recent.countP fun d =>
    match d.actionConfidence with
    | some c => decide (c < 0.5)
    | none => false
  if (recent.length : ℝ) * 0.5 < (low_confidence_count : ℝ) then
    ["Multiple low-confidence decisions preceding violation"]
  else []

/-- Heuristic 3 (lines 448–455): unheeded warning signals. -/
noncomputable def delayedWarningFinding (decisions : List DecisionRecord) : List String :=
  let warning_decisions := decisions.filter fun d =>
    match d.reward with
    | some r => decide (r < -0.5)
    | none => false
  if 2 < warning_decisions.length then
    ["Delayed response to safety warnings"]
  else []

/-- Heuristic 4 (lines 457–463): conflicting objectives. -/
noncomputable def conflictingObjectivesFinding (recent : List DecisionRecord) : List String :=
  if 1 < recent.length then
    let value_estimates := recent.map (fun d => d.valueEstimate)
    if 1 < value_estimates.length ∧ 1 < listVar value_estimates then
      ["Conflicting objective priorities"]
    else []
  else []

/-- Models `_identify_root_causes` (lines 410–469): the empty-history finding, the
four heuristics over the last 10 decisions, and the generic fallback that
guarantees a non-empty result. -/
noncomputable def identify_root_causes (decisions : List DecisionRecord) : List String :=
  if decisions.isEmpty then ["Insufficient decision history for analysis"]
  else
    let recent_decisions := takeLastN decisions 10
    let root_causes :=
      erraticControlFinding recent_decisions ++
      lowConfidenceFinding recent_decisions ++
      delayedWarningFinding decisions ++
      conflictingObjectivesFinding recent_decisions
    if root_causes = [] then ["Complex multi-factor scenario requiring further analysis"]
    else root_causes

/-- Models `analyze_violation` (lines 151–180) restricted to the decision-derived
annotations the claims read: `contributing_decisions` and `root_causes` (the
preventability score, response time and environmental factors annotate other
fields and do not influence these two). -/
noncomputable def analyze_violation (v : SafetyViolation)
    (allDecisions : List DecisionRecord) : SafetyViolation :=
  let relevant_decisions := get_relevant_decisions allDecisions v.timestamp
  { v with
    contributingDecisions := relevant_decisions.map (fun d => d.decisionId)
    rootCauses := identify_root_causes relevant_decisions }

/-- Per-violation penalty of `_calculate_safety_score` (lines 578–586). -/
noncomputable def severityPenalty : ViolationSeverity → ℝ
  | .critical => 20.0
  | .high => 10.0
  | .medium => 5.0
  | .low => 2.0

/-- Models `_calculate_safety_score` (lines 567–594): base 100, severity penalties
normalized by elapsed hours, floored at 0. -/
noncomputable def calculate_safety_score (violations : List SafetyViolation)
    (duration_hours : ℝ) : ℝ :=
  if duration_hours ≤ 0 then 100.0
  else
    let base_score := 100.0
    let violation_penalty := (violations.map fun v => severityPenalty v.severity).sum
    let normalized_penalty := violation_penalty / max duration_hours 1.0
    max 0.0 (base_score - normalized_penalty)



/-! ## Concrete scenario data and spec-side predicates used by the theorems -/

/-- Aircraft used in concrete scenarios: alive at the origin with its goal at
the origin. -/
def acAtGoalAlive : ACState := { x_nm := 0, y_nm := 0, alt_ft := 0, goal_x_nm := 0, goal_y_nm := 0, alive := true }

/-- The same aircraft after exiting (not alive). -/
def acAtGoalDead : ACState := { x_nm := 0, y_nm := 0, alt_ft := 0, goal_x_nm := 0, goal_y_nm := 0, alive := false }

/-- The spec-side loss-of-separation condition for an ordered pair of state
records: both live, horizontal Euclidean distance strictly below 5.0 NM, and
absolute altitude difference strictly below 1000 ft. -/
noncomputable def losPred (p : ACState × ACState) : Bool :=
  decide (p.1.alive = true ∧ p.2.alive = true ∧
    hypot (p.1.x_nm - p.2.x_nm) (p.1.y_nm - p.2.y_nm) < 5.0 ∧
    |p.1.alt_ft - p.2.alt_ft| < 1000.0)

/-- Live aircraft at the origin at 0 ft, goal at the origin. -/
def acLowAlt : ACState :=
  { x_nm := 0, y_nm := 0, alt_ft := 0, goal_x_nm := 0, goal_y_nm := 0, alive := true }

/-- Live aircraft at the origin at 1200 ft, goal at the origin. -/
def acHighAlt : ACState :=
  { x_nm := 0, y_nm := 0, alt_ft := 1200, goal_x_nm := 0, goal_y_nm := 0, alive := true }

/-- A low-severity violation record used in concrete safety-score scenarios. -/
def lowViolation : SafetyViolation :=
  { timestamp := 0, severity := .low, contributingDecisions := [], rootCauses := [] }

/-- A critical-severity violation record used in concrete safety-score
scenarios. -/
def criticalViolation : SafetyViolation :=
  { timestamp := 0, severity := .critical, contributingDecisions := [], rootCauses := [] }

/-- The bus configuration of the rate-limit scenario: empty registry, no
filters, rate limit 2, fresh window. -/
def rateLimitBus : Bus :=
  { subscribers := [], filters := [], history := [], maxHistory := 10,
    rateLimit := 2, rateCounter := 0, rateWindowStart := 0, running := true }

/-- A minimal `log_decision` input with the given millisecond clock value. -/
def logInputAt (t : ℤ) : LogInput :=
  { tms := t, timestamp := 0, action := [], valueEstimate := 0,
    actionConfidence := none, reward := none }

/-- The performance history of the anomaly scenario: baseline of ten values
alternating 0 and 2 (mean 1, standard deviation 1) followed by ten recent
values, the last of which has z-score 100. -/
def anomalyHistory : List ℝ :=
  [0, 2, 0, 2, 0, 2, 0, 2, 0, 2, 1, 1, 1, 1, 1, 1, 1, 1, 1, 101]

/-- A single decision record carrying no confidence, reward or action data:
none of the four root-cause heuristics can fire on it. -/
def genericDecision : DecisionRecord :=
  { decisionId := (1, 0), timestamp := 0, action := [], valueEstimate := 0,
    actionConfidence := none, reward := none }

/-! ## Theorems -/

@[simp] theorem takeLastN_nil (n : ℕ) : takeLastN ([] : List α) n = [] := by
  simp [takeLastN]

theorem length_takeLastN (l : List α) (n : ℕ) :
    (takeLastN l n).length = min n l.length := by
  simp [takeLastN]
  omega

/-- Absorbing earlier truncation: keeping the last `n` of a list that was
already truncated to its last `n` elements before an append is the same as
truncating the fully concatenated list.  This is the key algebraic fact about
`deque(maxlen=n)`. -/
theorem takeLastN_takeLastN_append (l m : List α) (n : ℕ) :
    takeLastN (takeLastN l n ++ m) n = takeLastN (l ++ m) n := by
  unfold takeLastN
  rw [List.drop_append_eq_append_drop, List.drop_append_eq_append_drop,
    List.drop_drop]
  simp only [List.length_append, List.length_drop]
  congr 2 <;> omega

/-- C10: `compute_reward` is invariant in its `alive_mask` argument — for any
two masks the returned scalar reward and component breakdown are identical,
because liveness is read exclusively from the `alive` field of the state
records. -/
theorem compute_reward_alive_mask_irrelevant (prev cur : List ACState)
    (min_sep_nm : ℝ) (los_count : ℕ) (m1 m2 : List Bool) :
    compute_reward prev cur min_sep_nm los_count m1 =
      compute_reward prev cur min_sep_nm los_count m2 := rfl

/-- C2: `compute_reward` returns the sum of its seven reported components
clipped to the closed interval [-20.0, +5.0], while the returned component
mapping holds the pre-clip values: a raw sum above 5.0 yields exactly 5.0, a
raw sum below -20.0 yields exactly -20.0, and in both saturated cases the
scalar differs from the sum of the reported components. -/
theorem compute_reward_clipping (prev cur : List ACState)
    (min_sep_nm : ℝ) (los_count : ℕ) (alive_mask : List Bool) :
    (compute_reward prev cur min_sep_nm los_count alive_mask).1 =
      max (-20.0) (min (sumComponents (compute_reward prev cur min_sep_nm los_count alive_mask).2) 5.0)
    ∧ (5.0 < sumComponents (compute_reward prev cur min_sep_nm los_count alive_mask).2 →
        (compute_reward prev cur min_sep_nm los_count alive_mask).1 = 5.0 ∧
        (compute_reward prev cur min_sep_nm los_count alive_mask).1 ≠
          sumComponents (compute_reward prev cur min_sep_nm los_count alive_mask).2)
    ∧ (sumComponents (compute_reward prev cur min_sep_nm los_count alive_mask).2 < -20.0 →
        (compute_reward prev cur min_sep_nm los_count alive_mask).1 = -20.0 ∧
        (compute_reward prev cur min_sep_nm los_count alive_mask).1 ≠
          sumComponents (compute_reward prev cur min_sep_nm los_count alive_mask).2) := by
  have h1 : (compute_reward prev cur min_sep_nm los_count alive_mask).1 =
      max (-20.0) (min (sumComponents (compute_reward prev cur min_sep_nm los_count alive_mask).2) 5.0) := rfl
  refine ⟨h1, fun h => ?_, fun h => ?_⟩
  · have h2 : (compute_reward prev cur min_sep_nm los_count alive_mask).1 = 5.0 := by
      rw [h1, min_eq_right h.le, max_eq_right (by norm_num)]
    exact ⟨h2, by rw [h2]; exact ne_of_lt h⟩
  · have h2 : (compute_reward prev cur min_sep_nm los_count alive_mask).1 = -20.0 := by
      rw [h1, min_eq_left (by linarith), max_eq_left (by linarith)]
    exact ⟨h2, by rw [h2]; exact ne_of_gt h⟩


/-- Witness for C2. -/
theorem compute_reward_clipping_witness :
    (5.0 < sumComponents (compute_reward [acAtGoalAlive, acAtGoalAlive]
        [acAtGoalDead, acAtGoalDead] 10 0 []).2 ∧
      (compute_reward [acAtGoalAlive, acAtGoalAlive] [acAtGoalDead, acAtGoalDead] 10 0 []).1 = 5.0 ∧
      (compute_reward [acAtGoalAlive, acAtGoalAlive] [acAtGoalDead, acAtGoalDead] 10 0 []).1 ≠
        sumComponents (compute_reward [acAtGoalAlive, acAtGoalAlive]
          [acAtGoalDead, acAtGoalDead] 10 0 []).2) ∧
    (sumComponents (compute_reward [] [] 10 3 []).2 < -20.0 ∧
      (compute_reward [] [] 10 3 []).1 = -20.0 ∧
      (compute_reward [] [] 10 3 []).1 ≠ sumComponents (compute_reward [] [] 10 3 []).2) := by
  have hs1 : sumComponents (compute_reward [acAtGoalAlive, acAtGoalAlive]
      [acAtGoalDead, acAtGoalDead] 10 0 []).2 = 10.0 := by
    simp [compute_reward, progressAndTerminal, hypot, sumComponents, acAtGoalAlive, acAtGoalDead]
    norm_num
  have hs2 : sumComponents (compute_reward [] [] 10 3 []).2 = -40.0 := by
    simp [compute_reward, progressAndTerminal, sumComponents]
    norm_num
  have h1 := (compute_reward_clipping [acAtGoalAlive, acAtGoalAlive]
    [acAtGoalDead, acAtGoalDead] 10 0 []).2.1 (by rw [hs1]; norm_num)
  have h2 := (compute_reward_clipping [] [] 10 3 []).2.2 (by rw [hs2]; norm_num)
  exact ⟨⟨by rw [hs1]; norm_num, h1.1, h1.2⟩, ⟨by rw [hs2]; norm_num, h2.1, h2.2⟩⟩

/-- C3: the catastrophe component equals -10.0 if and only if
`los_count ≥ 2` (at `los_count = 1` it is exactly 0.0), and the
`SyntheticTowerEnv.step` flag logic returns `terminated = true` whenever the
catastrophe component is negative. -/
theorem catastrophe_threshold_and_termination (prev cur : List ACState)
    (min_sep_nm : ℝ) (los_count : ℕ) (alive_mask : List Bool)
    (num_alive step_count horizon : ℕ) :
    ((compute_reward prev cur min_sep_nm los_count alive_mask).2.catastrophe = -10.0 ↔ 2 ≤ los_count)
    ∧ (los_count = 1 → (compute_reward prev cur min_sep_nm los_count alive_mask).2.catastrophe = 0.0)
    ∧ ((compute_reward prev cur min_sep_nm los_count alive_mask).2.catastrophe < 0 →
        (step_flags (compute_reward prev cur min_sep_nm los_count alive_mask).2.catastrophe
          num_alive step_count horizon).1 = true) := by
  have hc : (compute_reward prev cur min_sep_nm los_count alive_mask).2.catastrophe =
      if 2 ≤ los_count then -10.0 else 0.0 := rfl
  refine ⟨?_, ?_, ?_⟩
  · rw [hc]
    by_cases h : 2 ≤ los_count
    · simp [h]
    · simp [h]
      norm_num
  · intro h
    rw [hc]
    simp [h]
  · intro h
    unfold step_flags
    simp only [if_pos h]
    by_cases hn : num_alive = 0 <;> simp [hn]

/-- Witness for C3. -/
theorem catastrophe_threshold_witness :
    (compute_reward [] [] 10 2 []).2.catastrophe = -10.0 ∧
    (compute_reward [] [] 10 1 []).2.catastrophe = 0.0 ∧
    (step_flags (compute_reward [] [] 10 2 []).2.catastrophe 3 1 400).1 = true := by
  have h2 := catastrophe_threshold_and_termination [] [] 10 2 [] 3 1 400
  have h1 := catastrophe_threshold_and_termination [] [] 10 1 [] 3 1 400
  have hcat : (compute_reward [] [] 10 2 []).2.catastrophe = -10.0 := h2.1.mpr (by norm_num)
  exact ⟨hcat, h1.2.1 rfl, h2.2.2 (by rw [hcat]; norm_num)⟩


theorem sepFold_count (l : List (ACState × ACState)) :
    ∀ acc : ℝ × ℕ, (l.foldl sepStep acc).2 = acc.2 + l.countP losPred := by
  induction l with
  | nil => intro acc; simp
  | cons p l ih =>
    intro acc
    rw [List.foldl_cons, List.countP_cons, ih]
    by_cases h1 : p.1.alive ∧ p.2.alive
    · by_cases h2 : hypot (p.1.x_nm - p.2.x_nm) (p.1.y_nm - p.2.y_nm) < 5.0 ∧
          |p.1.alt_ft - p.2.alt_ft| < 1000.0
      · have hp : losPred p = true := by
          simp [losPred, h1.1, h1.2, h2.1, h2.2]
        simp [sepStep, h1, h2, hp]
        omega
      · have hp : losPred p = false := by
          simp only [losPred, decide_eq_false_iff_not]
          rintro ⟨_, _, hh, hv⟩
          exact h2 ⟨hh, hv⟩
        simp [sepStep, h1, h2, hp]
    · have hp : losPred p = false := by
        simp only [losPred, decide_eq_false_iff_not]
        rintro ⟨ha, hb, _, _⟩
        exact h1 ⟨ha, hb⟩
      simp [sepStep, h1, hp]

/-- C1: `pairwise_min_separation_nm` counts an unordered pair of live
aircraft toward `los_count` if and only if their horizontal Euclidean
distance is strictly below 5.0 NM and their absolute altitude difference is
strictly below 1000 ft; in particular a state list in which every live pair
is vertically separated by at least 1000 ft yields `los_count = 0`
regardless of horizontal distances. -/
theorem los_count_characterization (states : List ACState) :
    (pairwise_min_separation_nm states).2 = (allPairs states).countP losPred
    ∧ ((∀ p ∈ allPairs states, p.1.alive = true → p.2.alive = true →
          1000.0 ≤ |p.1.alt_ft - p.2.alt_ft|) →
        (pairwise_min_separation_nm states).2 = 0) := by
  have hc : (pairwise_min_separation_nm states).2 = (allPairs states).countP losPred := by
    show ((allPairs states).foldl sepStep (1e9, 0)).2 = _
    rw [sepFold_count]
    simp
  refine ⟨hc, fun hvert => ?_⟩
  rw [hc, List.countP_eq_zero]
  intro p hp
  simp only [losPred, decide_eq_true_eq]
  rintro ⟨ha, hb, _, hv⟩
  exact absurd (hvert p hp ha hb) (not_le.mpr hv)


/-- Witness for C1: two live aircraft at the same horizontal position
(0 NM apart, far below the 5 NM minimum) but 1200 ft apart vertically are
not counted as a loss of separation. -/
theorem los_count_characterization_witness :
    (∀ p ∈ allPairs [acLowAlt, acHighAlt],
      p.1.alive = true → p.2.alive = true → 1000.0 ≤ |p.1.alt_ft - p.2.alt_ft|) ∧
    (pairwise_min_separation_nm [acLowAlt, acHighAlt]).2 = 0 := by
  have hvert : ∀ p ∈ allPairs [acLowAlt, acHighAlt],
      p.1.alive = true → p.2.alive = true → 1000.0 ≤ |p.1.alt_ft - p.2.alt_ft| := by
    simp [allPairs, acLowAlt, acHighAlt]
    norm_num
  exact ⟨hvert, (los_count_characterization _).2 hvert⟩

/-- Counterexample for C9: with 50 violations in a one-hour window the score
floor at 0 saturates for both severities, so the all-low score is not
strictly higher than the all-critical score. -/
theorem safety_score_floor_counterexample :
    calculate_safety_score (List.replicate 50 lowViolation) 1.0 = 0.0 ∧
    calculate_safety_score (List.replicate 50 criticalViolation) 1.0 = 0.0 ∧
    ¬(calculate_safety_score (List.replicate 50 criticalViolation) 1.0 <
        calculate_safety_score (List.replicate 50 lowViolation) 1.0) := by
  have hl : calculate_safety_score (List.replicate 50 lowViolation) 1.0 = 0.0 := by
    simp [calculate_safety_score, lowViolation, severityPenalty, List.map_replicate,
      List.sum_replicate]
    norm_num
  have hc : calculate_safety_score (List.replicate 50 criticalViolation) 1.0 = 0.0 := by
    simp [calculate_safety_score, criticalViolation, severityPenalty, List.map_replicate,
      List.sum_replicate]
    norm_num
  exact ⟨hl, hc, by rw [hl, hc]; exact lt_irrefl _⟩


/-- C9 (amended): for `n ≥ 1` violations, a positive window duration, and
the all-low penalty not saturating the score floor
(`2n < 100·max(duration, 1)`), the safety score of `n` low-severity
violations is strictly higher than that of `n` critical-severity violations
(penalties critical=20 and low=2, normalized by elapsed hours, floored at
0).  When the floor saturates both sides, the scores tie; see the
counterexample. -/
theorem safety_score_low_above_critical (n : ℕ) (d : ℝ)
    (vl vc : List SafetyViolation)
    (hln : vl.length = n) (hcn : vc.length = n)
    (hlsev : ∀ v ∈ vl, v.severity = .low)
    (hcsev : ∀ v ∈ vc, v.severity = .critical)
    (hn : 1 ≤ n) (hd : 0 < d) (hsat : 2 * (n : ℝ) < 100 * max d 1.0) :
    calculate_safety_score vc d < calculate_safety_score vl d := by
  have hm : (0 : ℝ) < max d 1.0 := lt_max_of_lt_right (by norm_num)
  have hlsum : (vl.map fun v => severityPenalty v.severity).sum = 2 * n := by
    rw [List.sum_eq_card_nsmul _ (2 : ℝ) ?_]
    · simp [hln]
      ring
    · intro x hx
      obtain ⟨v, hv, rfl⟩ := List.mem_map.mp hx
      rw [hlsev v hv]
      norm_num [severityPenalty]
  have hcsum : (vc.map fun v => severityPenalty v.severity).sum = 20 * n := by
    rw [List.sum_eq_card_nsmul _ (20 : ℝ) ?_]
    · simp [hcn]
      ring
    · intro x hx
      obtain ⟨v, hv, rfl⟩ := List.mem_map.mp hx
      rw [hcsev v hv]
      norm_num [severityPenalty]
  have hnpos : (1 : ℝ) ≤ (n : ℝ) := by exact_mod_cast hn
  unfold calculate_safety_score
  rw [if_neg (not_le.mpr hd), if_neg (not_le.mpr hd)]
  simp only [hlsum, hcsum]
  have hlow_pos : 0 < 100.0 - 2 * (n : ℝ) / max d 1.0 := by
    rw [sub_pos, div_lt_iff₀ hm]
    linarith
  have hlt : 100.0 - 20 * (n : ℝ) / max d 1.0 < 100.0 - 2 * (n : ℝ) / max d 1.0 := by
    have h2 : 2 * (n : ℝ) / max d 1.0 < 20 * (n : ℝ) / max d 1.0 :=
      (div_lt_div_iff_of_pos_right hm).mpr (by linarith)
    linarith
  refine max_lt_iff.mpr ⟨?_, ?_⟩
  · exact lt_max_of_lt_right (by linarith)
  · exact lt_max_of_lt_right (by linarith)


/-- Witness for C9 (amended): one low-severity versus one critical-severity
violation in a one-hour window. -/
theorem safety_score_low_above_critical_witness :
    calculate_safety_score [criticalViolation] 1.0 < calculate_safety_score [lowViolation] 1.0 := by
  apply safety_score_low_above_critical 1 1.0 [lowViolation] [criticalViolation] rfl rfl
  · intro v hv
    rw [List.mem_singleton.mp hv]
    rfl
  · intro v hv
    rw [List.mem_singleton.mp hv]
    rfl
  · exact le_refl 1
  · norm_num
  · rw [max_self]
    norm_num

/-- C8: `_identify_root_causes` never returns an empty list, so every
violation processed by `analyze_violation` — including one analyzed against
an empty decision history — carries non-empty `root_causes`: the empty
history yields the insufficient-history finding, and when no heuristic
fires the generic multi-factor finding is attached. -/
theorem root_causes_never_empty :
    (∀ decisions : List DecisionRecord, identify_root_causes decisions ≠ [])
    ∧ (∀ (v : SafetyViolation) (allDecisions : List DecisionRecord),
        (analyze_violation v allDecisions).rootCauses ≠ [])
    ∧ identify_root_causes [] = ["Insufficient decision history for analysis"]
    ∧ (∀ decisions : List DecisionRecord, decisions.isEmpty = false →
        erraticControlFinding (takeLastN decisions 10) = [] →
        lowConfidenceFinding (takeLastN decisions 10) = [] →
        delayedWarningFinding decisions = [] →
        conflictingObjectivesFinding (takeLastN decisions 10) = [] →
        identify_root_causes decisions =
          ["Complex multi-factor scenario requiring further analysis"]) := by
  have h1 : ∀ decisions : List DecisionRecord, identify_root_causes decisions ≠ [] := by
    intro decisions
    unfold identify_root_causes
    split
    · simp
    · dsimp only
      split
      · simp
      · assumption
  refine ⟨h1, fun v allDecisions => h1 _, rfl, ?_⟩
  intro decisions hne he hl hd hc
  unfold identify_root_causes
  rw [hne]
  simp only [Bool.false_eq_true, if_false]
  rw [he, hl, hd, hc]
  rfl

/-- Witness for C8: the empty decision history gets the insufficient-history
finding, and a single uninformative decision record (no heuristic fires)
gets the generic multi-factor finding. -/
theorem root_causes_never_empty_witness :
    identify_root_causes [] = ["Insufficient decision history for analysis"] ∧
    identify_root_causes [genericDecision] =
      ["Complex multi-factor scenario requiring further analysis"] := by
  refine ⟨root_causes_never_empty.2.2.1, ?_⟩
  apply root_causes_never_empty.2.2.2 [genericDecision] rfl
  · rfl
  · have : (List.countP (fun d => match d.actionConfidence with
        | some c => decide (c < 0.5)
        | none => false) (takeLastN [genericDecision] 10)) = 0 := rfl
    unfold lowConfidenceFinding
    rw [this, if_neg]
    norm_num
  · rfl
  · rfl


/-- A publish call made while the rate counter has reached the limit, inside
the current one-second window, leaves the bus completely unchanged. -/
theorem publish_dropped_when_limited (b : Bus) (e : Event) (now : ℚ)
    (hrun : b.running = true) (hcount : b.rateLimit ≤ b.rateCounter)
    (hw : now - b.rateWindowStart < 1) : publish b e now = b := by
  unfold publish checkRateLimit
  rw [hrun]
  simp only [Bool.true_eq_false, if_false]
  rw [if_neg (not_le.mpr hw), if_pos hcount]
  simp

/-- At the window-start instant, a bus below quota accepts the publish and
bumps the counter. -/
theorem checkRateLimit_at_window_start (b : Bus) (hcount : b.rateCounter < b.rateLimit) :
    checkRateLimit b b.rateWindowStart = ({ b with rateCounter := b.rateCounter + 1 }, true) := by
  unfold checkRateLimit
  simp only [sub_self]
  rw [if_neg (by norm_num : ¬(1 : ℚ) ≤ 0), if_neg (not_le.mpr hcount)]

/-- An accepted publish (within the current window) advances the rate
counter by one and preserves the limiter configuration. -/
theorem publish_accepted_counter (b : Bus) (e : Event)
    (hrun : b.running = true) (hcount : b.rateCounter < b.rateLimit) :
    (publish b e b.rateWindowStart).rateCounter = b.rateCounter + 1 ∧
    (publish b e b.rateWindowStart).rateWindowStart = b.rateWindowStart ∧
    (publish b e b.rateWindowStart).rateLimit = b.rateLimit ∧
    (publish b e b.rateWindowStart).running = true := by
  unfold publish
  rw [hrun, checkRateLimit_at_window_start b hcount]
  simp only [Bool.true_eq_false, if_false]
  by_cases hf : applyFilters b.filters e = false <;> simp [hf, hrun, dequeAppend]

/-- Publishing a burst at the window-start instant: every event is accepted
while the quota lasts, and the counter records the number accepted. -/
theorem publishAll_counter (es : List Event) : ∀ b : Bus,
    b.running = true → b.rateCounter + es.length ≤ b.rateLimit →
    (publishAll b es b.rateWindowStart).rateCounter = b.rateCounter + es.length ∧
    (publishAll b es b.rateWindowStart).rateWindowStart = b.rateWindowStart ∧
    (publishAll b es b.rateWindowStart).rateLimit = b.rateLimit ∧
    (publishAll b es b.rateWindowStart).running = true := by
  induction es with
  | nil => intro b hrun _; exact ⟨by simp [publishAll], by simp [publishAll], by simp [publishAll], by simp [publishAll, hrun]⟩
  | cons e es ih =>
    intro b hrun hle
    simp only [List.length_cons] at hle
    have hacc := publish_accepted_counter b e hrun (by omega)
    have hws : (publish b e b.rateWindowStart).rateWindowStart = b.rateWindowStart := hacc.2.1
    have ih2 := ih (publish b e b.rateWindowStart) hacc.2.2.2
      (by rw [hacc.1, hacc.2.2.1]; omega)
    rw [hws] at ih2
    have hfold : publishAll b (e :: es) b.rateWindowStart =
        publishAll (publish b e b.rateWindowStart) es b.rateWindowStart := rfl
    rw [hfold]
    refine ⟨?_, ih2.2.1, ?_, ih2.2.2.2⟩
    · rw [ih2.1, hacc.1]
      simp only [List.length_cons]
      omega
    · rw [ih2.2.2.1, hacc.2.2.1]


/-- C5: once the rate limit of `R` publish calls has been accepted within
the current one-second window (the counter reaches `rateLimit`), every
further publish in that window returns normally and leaves the bus
completely unchanged: nothing is appended to the history and no subscriber
is invoked — the event is silently dropped, not queued. -/
theorem rate_limit_silent_drop (b : Bus) (es : List Event)
    (hrun : b.running = true) (h0 : b.rateCounter = 0)
    (hlen : es.length = b.rateLimit) :
    (publishAll b es b.rateWindowStart).rateCounter = b.rateLimit ∧
    ∀ (e : Event) (now : ℚ), now - b.rateWindowStart < 1 →
      publish (publishAll b es b.rateWindowStart) e now =
        publishAll b es b.rateWindowStart := by
  have hc := publishAll_counter es b hrun (by omega)
  have hfull : (publishAll b es b.rateWindowStart).rateCounter = b.rateLimit := by
    rw [hc.1, h0, hlen]
    omega
  refine ⟨hfull, fun e now hw => ?_⟩
  apply publish_dropped_when_limited _ _ _ hc.2.2.2
  · rw [hfull, hc.2.2.1]
  · rw [hc.2.1]
    exact hw

/-- Witness for C5: after two accepted publishes exhaust the limit of 2, a
third publish half a second into the window leaves the bus unchanged. -/
theorem rate_limit_silent_drop_witness :
    (publishAll rateLimitBus [⟨0, 1⟩, ⟨0, 2⟩] rateLimitBus.rateWindowStart).rateCounter = 2 ∧
    publish (publishAll rateLimitBus [⟨0, 1⟩, ⟨0, 2⟩] rateLimitBus.rateWindowStart) ⟨0, 3⟩ (1 / 2) =
      publishAll rateLimitBus [⟨0, 1⟩, ⟨0, 2⟩] rateLimitBus.rateWindowStart := by
  have h := rate_limit_silent_drop rateLimitBus [⟨0, 1⟩, ⟨0, 2⟩] rfl rfl rfl
  exact ⟨h.1, h.2 ⟨0, 3⟩ (1 / 2) (by norm_num [rateLimitBus])⟩


theorem takeLastN_of_length_le (l : List α) (n : ℕ) (h : l.length ≤ n) :
    takeLastN l n = l := by
  unfold takeLastN
  rw [Nat.sub_eq_zero_of_le h, List.drop_zero]

/-- An accepted, unfiltered publish at the window-start instant: counter
bumped, event appended to the bounded history, subscribers notified. -/
theorem publish_accepted_eval (b : Bus) (e : Event)
    (hrun : b.running = true) (hcount : b.rateCounter < b.rateLimit)
    (hfil : b.filters = []) :
    publish b e b.rateWindowStart =
      { b with rateCounter := b.rateCounter + 1,
               history := dequeAppend b.history e b.maxHistory,
               subscribers := notifySubscribers e b.subscribers } := by
  unfold publish
  rw [hrun, checkRateLimit_at_window_start b hcount]
  simp [applyFilters, hfil, hrun]

/-- Fan-out of a burst over the raiser/recorder subscriber pair: the
recording subscriber receives every event, the raising subscriber stays
registered with empty state, and every event reaches the history. -/
theorem publishAll_fanout (es : List Event) : ∀ (τ : ℕ) (s1 s2 h0 : List Event)
    (c0 M L : ℕ) (t : ℚ),
    (∀ e ∈ es, e.etype = τ) → c0 + es.length ≤ L → h0.length + es.length ≤ M →
    publishAll ⟨[⟨τ, raiserHandler, s1⟩, ⟨τ, recorderHandler, s2⟩], [], h0, M, L, c0, t, true⟩ es t =
      ⟨[⟨τ, raiserHandler, s1⟩, ⟨τ, recorderHandler, s2 ++ es⟩], [], h0 ++ es, M, L,
        c0 + es.length, t, true⟩ := by
  induction es with
  | nil => intro τ s1 s2 h0 c0 M L t _ _ _; simp [publishAll]
  | cons e es ih =>
    intro τ s1 s2 h0 c0 M L t htypes hL hM
    simp only [List.length_cons] at hL hM
    have hb : publishAll ⟨[⟨τ, raiserHandler, s1⟩, ⟨τ, recorderHandler, s2⟩], [], h0, M, L, c0, t, true⟩ (e :: es) t =
        publishAll (publish ⟨[⟨τ, raiserHandler, s1⟩, ⟨τ, recorderHandler, s2⟩], [], h0, M, L, c0, t, true⟩ e t) es t := rfl
    rw [hb, publish_accepted_eval _ e rfl (show c0 < L by omega) rfl]
    have hnotify : notifySubscribers e [⟨τ, raiserHandler, s1⟩, ⟨τ, recorderHandler, s2⟩] =
        [⟨τ, raiserHandler, s1⟩, ⟨τ, recorderHandler, s2 ++ [e]⟩] := by
      simp [notifySubscribers, safeCallback, raiserHandler, recorderHandler,
        htypes e (List.mem_cons_self e es)]
    have hhist : dequeAppend h0 e M = h0 ++ [e] := by
      apply takeLastN_of_length_le
      simp
      omega
    rw [hnotify, hhist,
      ih τ s1 (s2 ++ [e]) (h0 ++ [e]) (c0 + 1) M L t
        (fun e2 he2 => htypes e2 (List.mem_cons_of_mem e he2))
        (by omega) (by simp only [List.length_append, List.length_singleton]; omega)]
    simp only [Bus.mk.injEq, List.append_assoc, List.singleton_append, List.length_cons,
      and_true, true_and, eq_self_iff_true]
    omega


/-- C4: fan-out isolation — publishing any burst of events with an
always-raising subscriber and a recording subscriber co-registered for the
event type delivers every event to the recording subscriber (in order),
keeps both registrations intact, and appends every event to the bus
history; the raising callback corrupts nothing. -/
theorem event_bus_fanout_isolation (es : List Event) (τ M L : ℕ) (t : ℚ)
    (htypes : ∀ e ∈ es, e.etype = τ) (hL : es.length ≤ L) (hM : es.length ≤ M) :
    publishAll ⟨[⟨τ, raiserHandler, []⟩, ⟨τ, recorderHandler, []⟩], [], [], M, L, 0, t, true⟩ es t =
      ⟨[⟨τ, raiserHandler, []⟩, ⟨τ, recorderHandler, es⟩], [], es, M, L, es.length, t, true⟩ := by
  have h := publishAll_fanout es τ [] [] [] 0 M L t htypes (by omega)
    (by simp only [List.length_nil]; omega)
  simpa using h

/-- Witness for C4: two events published with a raising subscriber and a
recording subscriber both registered; the recorder receives both events, the
history holds both, and the raiser is still registered. -/
theorem event_bus_fanout_isolation_witness :
    publishAll ⟨[⟨0, raiserHandler, []⟩, ⟨0, recorderHandler, []⟩], [], [], 10, 10, 0, 0, true⟩
        [⟨0, 5⟩, ⟨0, 7⟩] 0 =
      ⟨[⟨0, raiserHandler, []⟩, ⟨0, recorderHandler, [⟨0, 5⟩, ⟨0, 7⟩]⟩], [],
        [⟨0, 5⟩, ⟨0, 7⟩], 10, 10, 2, 0, true⟩ :=
  event_bus_fanout_isolation [⟨0, 5⟩, ⟨0, 7⟩] 0 10 10 0
    (by decide) (by decide) (by decide)


theorem mkRecords_length (is : List LogInput) : ∀ n, (mkRecords n is).length = is.length := by
  induction is with
  | nil => intro n; simp [mkRecords]
  | cons i is ih => intro n; simp [mkRecords, ih]

theorem mkRecords_mem_count (is : List LogInput) :
    ∀ (n : ℕ) (r : DecisionRecord), r ∈ mkRecords n is → n < r.decisionId.1 := by
  induction is with
  | nil => intro n r hr; simp [mkRecords] at hr
  | cons i is ih =>
    intro n r hr
    rcases List.mem_cons.mp hr with h | h
    · rw [h]
      simp [mkRecord]
    · exact Nat.lt_of_succ_lt (ih (n + 1) r h)

theorem mkRecords_drop (is : List LogInput) :
    ∀ n j, (mkRecords n is).drop j = mkRecords (n + j) (is.drop j) := by
  induction is with
  | nil => intro n j; simp [mkRecords]
  | cons i is ih =>
    intro n j
    cases j with
    | zero => simp
    | succ j =>
      show (mkRecords (n + 1) is).drop j = _
      rw [ih (n + 1) j, List.drop_succ_cons]
      congr 1
      omega

theorem log_decision_eval (d : List DecisionRecord) (n C : ℕ) (i : LogInput) :
    log_decision ⟨d, n, C⟩ i = ⟨dequeAppend d (mkRecord (n + 1) i) C, n + 1, C⟩ := rfl

theorem dequeAppend_takeLastN (l : List α) (x : α) (n : ℕ) :
    dequeAppend (takeLastN l n) x n = takeLastN (l ++ [x]) n := by
  unfold dequeAppend
  rw [takeLastN_takeLastN_append]

theorem log_many_spec (inputs : List LogInput) : ∀ (d0 : List DecisionRecord) (n0 C : ℕ),
    log_many ⟨takeLastN d0 C, n0, C⟩ inputs =
      ⟨takeLastN (d0 ++ mkRecords n0 inputs) C, n0 + inputs.length, C⟩ := by
  induction inputs with
  | nil => intro d0 n0 C; simp [log_many, mkRecords]
  | cons i is ih =>
    intro d0 n0 C
    have hstep : log_many ⟨takeLastN d0 C, n0, C⟩ (i :: is) =
        log_many ⟨takeLastN (d0 ++ [mkRecord (n0 + 1) i]) C, n0 + 1, C⟩ is := by
      show log_many (log_decision ⟨takeLastN d0 C, n0, C⟩ i) is = _
      rw [log_decision_eval, dequeAppend_takeLastN]
    rw [hstep, ih]
    simp only [TrackerState.mk.injEq, List.append_assoc, List.singleton_append,
      List.length_cons, mkRecords]
    refine ⟨trivial, by omega, trivial⟩

/-- C6 (amended): logging `C + K` decisions (`K ≥ 1`) into a tracker of
capacity `C` leaves exactly the `C` most recently logged records in FIFO
order, the oldest `K` are no longer retrievable by id, and — provided
`C ≥ 1` — `get_statistics` reports `C + K` total decisions.  (For `C = 0`
the empty-buffer branch of `get_statistics` reports 0 instead; see the
counterexample.) -/
theorem decision_tracker_eviction (C K : ℕ) (inputs : List LogInput)
    (hlen : inputs.length = C + K) (hK : 1 ≤ K) :
    (log_many ⟨[], 0, C⟩ inputs).decisions = (mkRecords 0 inputs).drop K
    ∧ (log_many ⟨[], 0, C⟩ inputs).decisions.length = C
    ∧ (∀ (i : ℕ) (t : ℤ), 1 ≤ i → i ≤ K →
        get_decision_by_id (log_many ⟨[], 0, C⟩ inputs) (i, t) = none)
    ∧ (1 ≤ C → get_statistics (log_many ⟨[], 0, C⟩ inputs) =
        { totalDecisions := C + K, bufferSize := C }) := by
  have hspec : log_many ⟨[], 0, C⟩ inputs =
      ⟨takeLastN (mkRecords 0 inputs) C, inputs.length, C⟩ := by
    have h := log_many_spec inputs [] 0 C
    simpa using h
  have hlen2 : (mkRecords 0 inputs).length = C + K := by
    rw [mkRecords_length]
    exact hlen
  have hdec : (log_many ⟨[], 0, C⟩ inputs).decisions = (mkRecords 0 inputs).drop K := by
    rw [hspec]
    show takeLastN (mkRecords 0 inputs) C = _
    unfold takeLastN
    rw [hlen2]
    congr 1
    omega
  have hdlen : (log_many ⟨[], 0, C⟩ inputs).decisions.length = C := by
    rw [hdec, List.length_drop, hlen2]
    omega
  refine ⟨hdec, hdlen, ?_, ?_⟩
  · intro i t h1 hK2
    unfold get_decision_by_id
    rw [hdec, mkRecords_drop]
    apply List.find?_eq_none.mpr
    intro r hr
    have hgt := mkRecords_mem_count _ _ r hr
    simp only [decide_eq_true_eq]
    intro heq
    have : r.decisionId.1 = i := by rw [heq]
    omega
  · intro hC
    have hne : (log_many ⟨[], 0, C⟩ inputs).decisions.isEmpty = false := by
      rcases hd : (log_many ⟨[], 0, C⟩ inputs).decisions with _ | ⟨a, l⟩
      · rw [hd] at hdlen
        simp at hdlen
        omega
      · simp
    unfold get_statistics
    rw [hne]
    simp only [Bool.false_eq_true, if_false]
    have hcount : (log_many ⟨[], 0, C⟩ inputs).decisionCount = C + K := by
      rw [hspec]
      exact hlen
    rw [hcount, hdlen]


/-- Witness for C6 (amended): capacity 2, three decisions logged; two remain,
the first is unretrievable, and the statistics report 3 total. -/
theorem decision_tracker_eviction_witness :
    (log_many ⟨[], 0, 2⟩ [logInputAt 10, logInputAt 20, logInputAt 30]).decisions.length = 2 ∧
    get_decision_by_id (log_many ⟨[], 0, 2⟩ [logInputAt 10, logInputAt 20, logInputAt 30])
      (1, 10) = none ∧
    get_statistics (log_many ⟨[], 0, 2⟩ [logInputAt 10, logInputAt 20, logInputAt 30]) =
      { totalDecisions := 3, bufferSize := 2 } := by
  have h := decision_tracker_eviction 2 1 [logInputAt 10, logInputAt 20, logInputAt 30]
    rfl (le_refl 1)
  exact ⟨h.2.1, h.2.2.1 1 10 (le_refl 1) (le_refl 1), h.2.2.2 (by omega)⟩

/-- Counterexample for C6: a capacity-0 tracker logs one decision (`K = 1`);
the claim calls for `get_statistics` to report `C + K = 1` total decisions,
but the empty-buffer branch of `get_statistics` reports 0. -/
theorem decision_tracker_capacity_zero_counterexample :
    (get_statistics (log_many ⟨[], 0, 0⟩ [logInputAt 0])).totalDecisions = 0 ∧
    (get_statistics (log_many ⟨[], 0, 0⟩ [logInputAt 0])).totalDecisions ≠ 0 + 1 := by
  have h : get_statistics (log_many ⟨[], 0, 0⟩ [logInputAt 0]) =
      { totalDecisions := 0, bufferSize := 0 } := rfl
  rw [h]
  exact ⟨rfl, by decide⟩

set_option maxRecDepth 8000 in
/-- C7 (amended): every `BehaviorPattern` produced by
`analyze_recent_performance` is appended to the bounded pattern history
(capacity 500) and returned to the caller, with the pattern counter
advanced accordingly; the patterns produced by `detect_anomalies`, however,
are returned to the caller without being appended to the pattern history
(see the counterexample). -/
theorem pattern_history_storage {PM : Type} (analyses : List PM → List BehaviorPattern)
    (s : PAState PM) (episodes : ℕ) (metric : PM → ℝ) (lookback : ℕ) (tms : ℤ) :
    (10 ≤ (takeLastN s.performanceHistory episodes).length →
      (analyze_recent_performance analyses s episodes).2 =
        analyses (takeLastN s.performanceHistory episodes) ∧
      (analyze_recent_performance analyses s episodes).1.patterns =
        takeLastN (s.patterns ++ (analyze_recent_performance analyses s episodes).2)
          patternHistoryCapacity ∧
      (analyze_recent_performance analyses s episodes).1.patternCount =
        s.patternCount + (analyze_recent_performance analyses s episodes).2.length)
    ∧ (detect_anomalies metric s lookback tms).1.patterns = s.patterns := by
  constructor
  · intro h10
    have hif : ¬ (takeLastN s.performanceHistory episodes).length < 10 := not_lt.mpr h10
    have heval : analyze_recent_performance analyses s episodes =
        ({ s with
            patterns := takeLastN
              (s.patterns ++ analyses (takeLastN s.performanceHistory episodes))
              patternHistoryCapacity
            patternCount := s.patternCount +
              (analyses (takeLastN s.performanceHistory episodes)).length },
          analyses (takeLastN s.performanceHistory episodes)) := by
      unfold analyze_recent_performance
      rw [if_neg hif]
    rw [heval]
    exact ⟨rfl, rfl, rfl⟩
  · unfold detect_anomalies
    dsimp only
    split
    · rfl
    · split
      · rfl
      · split
        · rfl
        · rfl


/-- Witness for C7 (amended): a 10-episode history and an analysis pass that
detects one pattern; the pattern is returned and lands in the history. -/
theorem pattern_history_storage_witness :
    (analyze_recent_performance (fun _ => [{ patternId := (0, 0), effectSize := 1 }])
      (⟨[], 0, List.replicate 10 (0 : ℝ)⟩ : PAState ℝ) 10).2 =
        [{ patternId := (0, 0), effectSize := 1 }] ∧
    (analyze_recent_performance (fun _ => [{ patternId := (0, 0), effectSize := 1 }])
      (⟨[], 0, List.replicate 10 (0 : ℝ)⟩ : PAState ℝ) 10).1.patterns =
        [{ patternId := (0, 0), effectSize := 1 }] := by
  have h := (pattern_history_storage (fun _ => [{ patternId := (0, 0), effectSize := 1 }])
    (⟨[], 0, List.replicate 10 (0 : ℝ)⟩ : PAState ℝ) 10 (fun x => x) 50 0).1
    (by simp [takeLastN])
  refine ⟨h.1, ?_⟩
  rw [h.2.1, h.1]
  rfl

/-- Evaluation of `detect_anomalies` on its main branch. -/
theorem detect_anomalies_eval {PM : Type} (metric : PM → ℝ) (s : PAState PM)
    (lookback : ℕ) (tms : ℤ)
    (h20 : ¬ (takeLastN s.performanceHistory lookback).length < 20)
    (hne : ¬ (takeLastN s.performanceHistory lookback).map metric = [])
    (hstd : ¬ listStd (dropLastN ((takeLastN s.performanceHistory lookback).map metric) 10) = 0) :
    detect_anomalies metric s lookback tms =
      (let values := (takeLastN s.performanceHistory lookback).map metric
       let baseline_mean := listMean (dropLastN values 10)
       let baseline_std := listStd (dropLastN values 10)
       let z_scores := (takeLastN values 10).map fun v => |(v - baseline_mean) / baseline_std|
       let r := z_scores.foldl (anomalyFold tms) (s.patternCount, [])
       ({ s with patternCount := r.1 }, r.2)) := by
  unfold detect_anomalies
  rw [if_neg h20, if_neg (by simpa using hne), if_neg hstd]

/-- Counterexample for C7: `detect_anomalies` on `anomalyHistory` returns one
anomaly pattern to the caller, yet the pattern history (empty before the
call) is still empty afterwards — the anomaly is never appended. -/
theorem detect_anomalies_not_stored_counterexample :
    (detect_anomalies (fun x : ℝ => x) ⟨[], 0, anomalyHistory⟩ 50 0).2 =
      [{ patternId := (0, 0), effectSize := 100 }] ∧
    (detect_anomalies (fun x : ℝ => x) ⟨[], 0, anomalyHistory⟩ 50 0).1.patterns = [] := by
  have hmap : anomalyHistory.map (fun x : ℝ => x) = anomalyHistory := by
    simp
  have htake : takeLastN anomalyHistory 50 = anomalyHistory := rfl
  have hbase : dropLastN anomalyHistory 10 = [0, 2, 0, 2, 0, 2, 0, 2, 0, 2] := rfl
  have hmean : listMean [0, 2, 0, 2, 0, 2, 0, 2, 0, 2] = 1 := by
    unfold listMean
    norm_num [List.sum_cons]
  have hvar : listVar [0, 2, 0, 2, 0, 2, 0, 2, 0, 2] = 1 := by
    unfold listVar
    rw [hmean]
    norm_num [listMean, List.sum_cons]
  have hstd : listStd [0, 2, 0, 2, 0, 2, 0, 2, 0, 2] = 1 := by
    unfold listStd
    rw [hvar]
    exact Real.sqrt_one
  have hrecent : takeLastN anomalyHistory 10 = [1, 1, 1, 1, 1, 1, 1, 1, 1, 101] := rfl
  have heval := detect_anomalies_eval (fun x : ℝ => x) (⟨[], 0, anomalyHistory⟩ : PAState ℝ) 50 0
    (by decide) (by rw [show takeLastN (PAState.performanceHistory ⟨[], 0, anomalyHistory⟩) 50 = anomalyHistory from rfl, hmap]; decide)
    (by rw [show takeLastN (PAState.performanceHistory ⟨[], 0, anomalyHistory⟩) 50 = anomalyHistory from rfl, hmap, hbase, hstd]; norm_num)
  have hzs : ([1, 1, 1, 1, 1, 1, 1, 1, 1, 101] : List ℝ).map (fun v => |(v - 1) / 1|) =
      [0, 0, 0, 0, 0, 0, 0, 0, 0, 100] := by
    norm_num
  have hfoldz : ([0, 0, 0, 0, 0, 0, 0, 0, 0, 100] : List ℝ).foldl (anomalyFold 0) (0, []) =
      (1, [{ patternId := (0, 0), effectSize := 100 }]) := by
    simp only [List.foldl_cons, List.foldl_nil]
    norm_num [anomalyFold, anomaly_threshold]
  have hfulleval : detect_anomalies (fun x : ℝ => x) (⟨[], 0, anomalyHistory⟩ : PAState ℝ) 50 0 =
      (⟨[], 1, anomalyHistory⟩, [{ patternId := (0, 0), effectSize := 100 }]) := by
    rw [heval]
    dsimp only
    rw [show takeLastN anomalyHistory 50 = anomalyHistory from rfl, hmap, hbase, hmean, hstd,
      hrecent, hzs, hfoldz]
  rw [hfulleval]
  exact ⟨rfl, rfl⟩

end Botbot
